import Mathlib

/-!
Verification of the SRT_Trans subtitle-translation pipeline.

Shallow embedding of the repository's Python sources:
  * `src/srt_translator/srt_parser.py`  — text sanitizing (`clean_text`),
    markup restoration (`reinsert_tags`), subtitle update (`update_subtitles_text`);
  * `src/srt_translator/translators.py` — the three translation backends and
    language-code validation;
  * `src/srt_translator/cli.py`         — the block translator (`translate_block`),
    the per-file orchestrator (`translate_single_srt`) and the main loop.

Text is modelled as Lean `String` / `List Char`.  External collaborators
(nltk's sentence tokenizer, langdetect, the remote translation HTTP calls,
pysrt's file I/O) are modelled as explicit function parameters or as outcome
fields, so theorems quantify over all of their possible behaviours.
Python whitespace (`\s`, `str.strip`) is modelled for the ASCII whitespace
characters.
-/

namespace SrtTrans

/-- ASCII model of Python's `\s` / `str.strip` whitespace class. -/
def pyIsSpace (c : Char) : Bool :=
  c = ' ' || c = '\t' || c = '\n' || c = '\x0d' || c = '\x0b' || c = '\x0c'

/-! ### Python `str.replace`

`s.replace(old, new)` replaces every non-overlapping occurrence of `old`,
scanning left to right.  `skip` counts characters of an already-matched
occurrence that still have to be dropped, which keeps the recursion
structural.  The sources only ever call `replace` with a non-empty pattern
(a `__TAG_<n>__` placeholder); for an empty pattern this model returns the
input unchanged. -/
def listReplaceAux (pat rep : List Char) : List Char → Nat → List Char
  | [], _ => []
  | _ :: rest, skip + 1 => listReplaceAux pat rep rest skip
  | c :: rest, 0 =>
    if pat.isPrefixOf (c :: rest) && !pat.isEmpty then
      rep ++ listReplaceAux pat rep rest (pat.length - 1)
    else
      c :: listReplaceAux pat rep rest 0

/-- Python `text.replace(pat, rep)` on Lean strings. -/
def strReplace (s pat rep : String) : String :=
  ⟨listReplaceAux pat.data rep.data s.data 0⟩

/-! ### `SrtParser.clean_text` (srt_parser.py lines 50-72) -/

/-- The placeholder token `__TAG_<n>__` built by `clean_text`'s `replace_tag`. -/
def placeholder (n : Nat) : String :=
  "__TAG_" ++ toString n ++ "__"

/-- The tag-extraction pass `re.sub(r'<[^>]*>', replace_tag, text)`:
scanning left to right, each span from a `<` to the first following `>` is
replaced by `placeholder n` (`n` = number of tags found so far) and the pair
`(placeholder n, span)` is appended to the tag list.  A `<` with no later
`>` does not match and stays in place.  `skip` consumes the characters of a
matched span (keeping the recursion structural), `n` is `len(tags)`. -/
def extractTagsAux : List Char → Nat → Nat → List Char × List (String × String)
  | [], _, _ => ([], [])
  | _ :: rest, skip + 1, n => extractTagsAux rest skip n
  | c :: rest, 0, n =>
    if c = '<' && rest.contains '>' then
      let inside := rest.takeWhile (fun x => !(x = '>'))
      let tag : String := ⟨'<' :: (inside ++ ['>'])⟩
      let res := extractTagsAux rest (inside.length + 1) (n + 1)
      ((placeholder n).data ++ res.1, (placeholder n, tag) :: res.2)
    else
      let res := extractTagsAux rest 0 n
      (c :: res.1, res.2)

/-- The whitespace-collapsing pass `re.sub(r'\s+', ' ', cleaned_text)`:
every maximal run of whitespace becomes a single space.  `inRun` records
whether the previous character was part of a whitespace run. -/
def collapseWsAux : Bool → List Char → List Char
  | _, [] => []
  | inRun, c :: rest =>
    if pyIsSpace c then
      if inRun then collapseWsAux true rest
      else ' ' :: collapseWsAux true rest
    else
      c :: collapseWsAux false rest

/-- `re.sub(r'\s+', ' ', l)`. -/
def collapseWs (l : List Char) : List Char :=
  collapseWsAux false l

/-- Python `str.strip()`: drop leading and trailing whitespace. -/
def stripList (l : List Char) : List Char :=
  (l.dropWhile pyIsSpace).rdropWhile pyIsSpace

/-- `SrtParser.clean_text`: extract HTML tags into placeholders, collapse
whitespace runs to single spaces, strip the ends.  Returns
`(cleaned_text, tags)`. -/
def clean_text (text : String) : String × List (String × String) :=
  let res := extractTagsAux text.data 0 0
  (⟨stripList (collapseWs res.1)⟩, res.2)

/-! ### `SrtParser.reinsert_tags` (srt_parser.py lines 74-80) -/

/-- `SrtParser.reinsert_tags`: for each `(placeholder, tag)` pair in list
order, `text = text.replace(placeholder, tag)`. -/
def reinsert_tags (text : String) (tags : List (String × String)) : String :=
  tags.foldl (fun t p => strReplace t p.1 p.2) text

/-- Occurrence test: does `pat` occur as a contiguous substring of the list?
Used to state when a `str.replace` call can find anything to replace. -/
def occursIn (pat : List Char) : List Char → Bool
  | [] => pat.isEmpty
  | c :: rest => pat.isPrefixOf (c :: rest) || occursIn pat rest

/-! ### translators.py -/

/-- Python truthiness/blank test `not text or not text.strip()`:
true exactly when every character is whitespace (in particular for `""`). -/
def pyIsBlank (s : String) : Bool :=
  s.data.all pyIsSpace

/-- `COMMON_LANGUAGE_CODES` (translators.py lines 11-40): code ↦ display name. -/
def COMMON_LANGUAGE_CODES : List (String × String) := [
  ("af", "Afrikaans"), ("sq", "Albanian"), ("am", "Amharic"), ("ar", "Arabic"),
  ("hy", "Armenian"), ("az", "Azerbaijani"), ("eu", "Basque"), ("be", "Belarusian"),
  ("bn", "Bengali"), ("bs", "Bosnian"), ("bg", "Bulgarian"), ("ca", "Catalan"),
  ("ceb", "Cebuano"), ("zh-CN", "Chinese (Simplified)"), ("zh-TW", "Chinese (Traditional)"),
  ("co", "Corsican"), ("hr", "Croatian"), ("cs", "Czech"), ("da", "Danish"),
  ("nl", "Dutch"), ("en", "English"), ("eo", "Esperanto"), ("et", "Estonian"),
  ("fi", "Finnish"), ("fr", "French"), ("fy", "Frisian"), ("gl", "Galician"),
  ("ka", "Georgian"), ("de", "German"), ("el", "Greek"), ("gu", "Gujarati"),
  ("ht", "Haitian Creole"), ("ha", "Hausa"), ("haw", "Hawaiian"), ("he", "Hebrew"),
  ("hi", "Hindi"), ("hmn", "Hmong"), ("hu", "Hungarian"), ("is", "Icelandic"),
  ("ig", "Igbo"), ("id", "Indonesian"), ("ga", "Irish"), ("it", "Italian"),
  ("ja", "Japanese"), ("jv", "Javanese"), ("kn", "Kannada"), ("kk", "Kazakh"),
  ("km", "Khmer"), ("rw", "Kinyarwanda"), ("ko", "Korean"), ("ku", "Kurdish"),
  ("ky", "Kyrgyz"), ("lo", "Lao"), ("la", "Latin"), ("lv", "Latvian"),
  ("lt", "Lithuanian"), ("lb", "Luxembourgish"), ("mk", "Macedonian"), ("mg", "Malagasy"),
  ("ms", "Malay"), ("ml", "Malayalam"), ("mt", "Maltese"), ("mi", "Maori"),
  ("mr", "Marathi"), ("mn", "Mongolian"), ("my", "Myanmar (Burmese)"), ("ne", "Nepali"),
  ("no", "Norwegian"), ("ny", "Nyanja (Chichewa)"), ("or", "Odia (Oriya)"), ("ps", "Pashto"),
  ("fa", "Persian"), ("pl", "Polish"), ("pt", "Portuguese"), ("pa", "Punjabi"),
  ("ro", "Romanian"), ("ru", "Russian"), ("sm", "Samoan"), ("gd", "Scots Gaelic"),
  ("sr", "Serbian"), ("st", "Sesotho"), ("sn", "Shona"), ("sd", "Sindhi"),
  ("si", "Sinhala (Sinhalese)"), ("sk", "Slovak"), ("sl", "Slovenian"), ("so", "Somali"),
  ("es", "Spanish"), ("su", "Sundanese"), ("sw", "Swahili"), ("sv", "Swedish"),
  ("tl", "Tagalog (Filipino)"), ("tg", "Tajik"), ("ta", "Tamil"), ("tt", "Tatar"),
  ("te", "Telugu"), ("th", "Thai"), ("tr", "Turkish"), ("tk", "Turkmen"),
  ("uk", "Ukrainian"), ("ur", "Urdu"), ("ug", "Uyghur"), ("uz", "Uzbek"),
  ("vi", "Vietnamese"), ("cy", "Welsh"), ("xh", "Xhosa"), ("yi", "Yiddish"),
  ("yo", "Yoruba"), ("zu", "Zulu")]

/-- `validate_language_code(code, allow_auto)` (translators.py lines 55-63):
`allow_auto and code == 'auto'`, or `code.lower() in COMMON_LANGUAGE_CODES`,
or `len(code) in (2, 5)`. -/
def validate_language_code (code : String) (allowAuto : Bool) : Bool :=
  if allowAuto && code = "auto" then true
  else
    COMMON_LANGUAGE_CODES.any (fun p => p.1 = code.toLower)
      || code.length = 2 || code.length = 5

/-- `GoogleTranslate.translate`'s source-language argument
(translators.py line 83): `src_lang if src_lang and src_lang != 'auto' else 'auto'`
(`None` is modelled as `""`). -/
def googleSourceParam (srcLang : String) : String :=
  if srcLang ≠ "" && srcLang ≠ "auto" then srcLang else "auto"

/-- `GoogleTranslate.translate` (translators.py lines 79-89).  The
deep-translator network call is the `remote` parameter
(`remote source target text`); a `None`/empty remote result falls back to the
input text; a raised exception is re-raised as a `RuntimeError`. -/
def googleTranslate (remote : String → String → String → Except String String)
    (text destLang srcLang : String) : Except String String :=
  if pyIsBlank text then .ok text
  else
    match remote (googleSourceParam srcLang) destLang text with
    | .ok result => .ok (if result ≠ "" then result else text)
    | .error e => .error ("Google Translate error: " ++ e)

/-- `DeepLTranslate.translate`'s source-language argument (translators.py
line 109): `src_lang.upper() if src_lang and src_lang != 'auto' else 'auto'`. -/
def deeplSourceParam (srcLang : String) : String :=
  if srcLang ≠ "" && srcLang ≠ "auto" then srcLang.toUpper else "auto"

/-- `DeepLTranslate.translate` (translators.py lines 101-115); the
`DeeplTranslator` network call is the `remote` parameter
(`remote apiKey source target text`). -/
def deeplTranslate (remote : String → String → String → String → Except String String)
    (apiKey text destLang srcLang : String) : Except String String :=
  if pyIsBlank text then .ok text
  else
    match remote apiKey (deeplSourceParam srcLang) destLang.toUpper text with
    | .ok result => .ok (if result ≠ "" then result else text)
    | .error e => .error ("DeepL error: " ++ e)

/-- `MYMEMORY_LANG_CODES` (translators.py lines 118-146): short code ↦ full
region-qualified MyMemory code. -/
def MYMEMORY_LANG_CODES : List (String × String) := [
  ("af", "af-ZA"), ("sq", "sq-AL"), ("am", "am-ET"), ("ar", "ar-SA"),
  ("hy", "hy-AM"), ("az", "az-AZ"), ("eu", "eu-ES"), ("be", "be-BY"),
  ("bn", "bn-IN"), ("bs", "bs-BA"), ("bg", "bg-BG"), ("ca", "ca-ES"),
  ("ceb", "ceb-PH"), ("zh-CN", "zh-CN"), ("zh-TW", "zh-TW"), ("zh", "zh-CN"),
  ("hr", "hr-HR"), ("cs", "cs-CZ"), ("da", "da-DK"), ("nl", "nl-NL"),
  ("en", "en-GB"), ("eo", "eo-EU"), ("et", "et-EE"), ("fi", "fi-FI"),
  ("fr", "fr-FR"), ("gl", "gl-ES"), ("ka", "ka-GE"), ("de", "de-DE"),
  ("el", "el-GR"), ("gu", "gu-IN"), ("ht", "ht-HT"), ("ha", "ha-NE"),
  ("haw", "haw-US"), ("he", "he-IL"), ("hi", "hi-IN"), ("hu", "hu-HU"),
  ("is", "is-IS"), ("ig", "ig-NG"), ("id", "id-ID"), ("ga", "ga-IE"),
  ("it", "it-IT"), ("ja", "ja-JP"), ("jv", "jv-ID"), ("kn", "kn-IN"),
  ("kk", "kk-KZ"), ("km", "km-KH"), ("rw", "rw-RW"), ("ko", "ko-KR"),
  ("ku", "kmr-TR"), ("ky", "ky-KG"), ("lo", "lo-LA"), ("la", "la-XN"),
  ("lv", "lv-LV"), ("lt", "lt-LT"), ("lb", "lb-LU"), ("mk", "mk-MK"),
  ("mg", "mg-MG"), ("ms", "ms-MY"), ("ml", "ml-IN"), ("mt", "mt-MT"),
  ("mi", "mi-NZ"), ("mr", "mr-IN"), ("mn", "mn-MN"), ("my", "my-MM"),
  ("ne", "ne-NP"), ("no", "nb-NO"), ("ny", "ny-MW"), ("or", "or-IN"),
  ("ps", "ps-PK"), ("fa", "fa-IR"), ("pl", "pl-PL"), ("pt", "pt-PT"),
  ("pa", "pa-IN"), ("ro", "ro-RO"), ("ru", "ru-RU"), ("sm", "sm-WS"),
  ("gd", "gd-GB"), ("sr", "sr-Latn-RS"), ("sn", "sn-ZW"), ("sd", "sd-PK"),
  ("si", "si-LK"), ("sk", "sk-SK"), ("sl", "sl-SI"), ("so", "so-SO"),
  ("es", "es-ES"), ("su", "su-ID"), ("sw", "sw-KE"), ("sv", "sv-SE"),
  ("tl", "tl-PH"), ("tg", "tg-TJ"), ("ta", "ta-IN"), ("tt", "tt-RU"),
  ("te", "te-IN"), ("th", "th-TH"), ("tr", "tr-TR"), ("tk", "tk-TM"),
  ("uk", "uk-UA"), ("ur", "ur-PK"), ("ug", "ug-CN"), ("uz", "uz-UZ"),
  ("vi", "vi-VN"), ("cy", "cy-GB"), ("xh", "xh-ZA"), ("yi", "yi-YD"),
  ("yo", "yo-NG"), ("zu", "zu-ZA")]

/-- `MyMemoryTranslate._get_full_code` (translators.py lines 157-166):
`None`/empty/`'auto'` becomes the fixed default `'en-GB'`; a code already
containing `-` is used as-is; otherwise the short code is mapped through
`MYMEMORY_LANG_CODES`, defaulting to `'<code>-<CODE>'`. -/
def mymemory_get_full_code (code : String) : String :=
  if code = "" || code = "auto" then "en-GB"
  else
    let codeLower := code.toLower
    if code.data.contains '-' then code
    else
      match MYMEMORY_LANG_CODES.find? (fun p => p.1 = codeLower) with
      | some p => p.2
      | none => codeLower ++ "-" ++ codeLower.toUpper

/-- `MyMemoryTranslate.translate` (translators.py lines 168-179); the
`MyMemoryTranslator` network call is the `remote` parameter
(`remote source target text`). -/
def myMemoryTranslate (remote : String → String → String → Except String String)
    (text destLang srcLang : String) : Except String String :=
  if pyIsBlank text then .ok text
  else
    match remote (mymemory_get_full_code srcLang) (mymemory_get_full_code destLang) text with
    | .ok result => .ok (if result ≠ "" then result else text)
    | .error e => .error ("MyMemory error: " ++ e)

/-! ### cli.py — block translator -/

/-- The external collaborators used by `translate_block` (cli.py):
nltk's `sent_tokenize` behind `SrtParser.split_into_sentences`, langdetect
behind `SrtParser.detect_language` (total: the source wraps the raw detector
in a `try/except` returning `'unknown'`), and the selected translator's
`translate` method, whose raised exceptions are `Except.error`. -/
structure BlockEnv where
  split_into_sentences : String → List String
  detect_language : String → String
  translate : String → String → String → Except String String

/-- The per-sentence source-language choice (cli.py lines 34-39):
start from the caller's `source_lang` and override it with the detected
language in the two `if`/`elif` cases of the source. -/
def effectiveSourceLang (sourceLang detectedLang : String) : String :=
  if sourceLang = "auto" && detectedLang ≠ "unknown" then detectedLang
  else if sourceLang ≠ "auto" && detectedLang ≠ "unknown" && detectedLang ≠ sourceLang then
    detectedLang
  else sourceLang

/-- The sentence loop of `translate_block` (cli.py lines 31-43): detect each
sentence's language, choose the effective source language, call the
translator; the first raised exception aborts the loop (there is no
per-sentence handler in the source). -/
def translateSentences (env : BlockEnv) (outputLang sourceLang : String) :
    List String → Except String (List String)
  | [] => .ok []
  | s :: rest =>
    match env.translate s outputLang
        (effectiveSourceLang sourceLang (env.detect_language s)) with
    | .error e => .error e
    | .ok t =>
      match translateSentences env outputLang sourceLang rest with
      | .error e => .error e
      | .ok ts => .ok (t :: ts)

/-- The body of `translate_block`'s single `try` block (cli.py lines 25-50):
clean the text, split into sentences, translate each sentence, rejoin with
single spaces and reinsert the tags. -/
def translate_block_core (env : BlockEnv) (originalText outputLang sourceLang : String) :
    Except String String :=
  let res := clean_text originalText
  let sentences := env.split_into_sentences res.1
  match translateSentences env outputLang sourceLang sentences with
  | .error e => .error e
  | .ok translated => .ok (reinsert_tags (String.intercalate " " translated) res.2)

/-- `translate_block` (cli.py lines 13-53): on any exception the block's
result is `(idx, original_text)`. -/
def translate_block (env : BlockEnv) (idx : Nat) (originalText outputLang sourceLang : String) :
    Nat × String :=
  match translate_block_core env originalText outputLang sourceLang with
  | .ok t => (idx, t)
  | .error _ => (idx, originalText)

/-! ### cli.py — per-file orchestrator -/

/-- The branch condition of `translate_single_srt` (cli.py line 96):
`workers > 1 and total_blocks > 10` selects the thread-pool path. -/
def useConcurrent (workers totalBlocks : Nat) : Bool :=
  workers > 1 && totalBlocks > 10

/-- The collection loop of the concurrent path (cli.py lines 97-103):
a pre-sized `[None] * total_blocks` sequence in which each completed
result is stored at its own `block_position`. -/
def collectByPosition (n : Nat) (results : List (Nat × String)) : List (Option String) :=
  results.foldl (fun acc r => acc.set r.1 (some r.2)) (List.replicate n none)

/-- The translation phase of `translate_single_srt` (cli.py lines 90-109).
`completionOrder` is the order in which `as_completed` yields the futures:
any permutation of the block positions.  The sequential path maps
`translate_block` over the enumerated work items in input order.  Slots are
`Option String` to model the `[None] * total_blocks` pre-sizing. -/
def translate_single_srt_blocks (env : BlockEnv) (outputLang sourceLang : String)
    (blocks : List String) (workers : Nat) (completionOrder : List Nat) :
    List (Option String) :=
  if useConcurrent workers blocks.length then
    collectByPosition blocks.length
      (completionOrder.map fun i =>
        translate_block env i (blocks.getD i ("")) outputLang sourceLang)
  else
    blocks.enum.map fun item =>
      some (translate_block env item.1 item.2 outputLang sourceLang).2

/-! ### srt_parser.py — subtitle blocks, update and write -/

/-- A parsed subtitle block (`pysrt.SubRipItem`, aliased `Subtitle` in
srt_parser.py line 12).  The `end` field is renamed `endTime` because `end`
is a Lean keyword. -/
structure Subtitle where
  index : Nat
  start : String
  endTime : String
  text : String
deriving Repr, DecidableEq

/-- `SrtParser.update_subtitles_text` (srt_parser.py lines 41-44): sets
`sub.text = translated_texts[i]` for each subtitle in order.  Python raises
`IndexError` when `translated_texts` is shorter than the subtitle list;
this is the `none` case. -/
def update_subtitles_text (subs : List Subtitle) (translatedTexts : List String) :
    Option (List Subtitle) :=
  if subs.length ≤ translatedTexts.length then
    some (List.zipWith (fun sub t => { sub with text := t }) subs translatedTexts)
  else
    none

/-- Modelled from the spec: `SrtParser.write_srt` delegates to the external
collaborator `pysrt.SubRipFile.save` (not part of this repository), which
per spec §6 "serializes preserving each block's `index`, `start`, `end`
verbatim and only the (possibly translated) `text` differs from input".
One block in SubRip form. -/
def serializeSubtitle (s : Subtitle) : String :=
  toString s.index ++ "\n" ++ s.start ++ " --> " ++ s.endTime ++ "\n" ++ s.text ++ "\n\n"

/-- Modelled from the spec: the whole file written by `write_srt`. -/
def write_srt (subs : List Subtitle) : String :=
  String.join (subs.map serializeSubtitle)

/-! ### cli.py — file job runner and main loop -/

/-- The Python exception classes distinguished by `translate_single_srt`'s
handlers (cli.py lines 127-132). -/
inductive PyErr where
  | fileNotFound : PyErr
  | valueError : String → PyErr
  | other : String → PyErr
deriving Repr

/-- `os.path.splitext`: split off the extension at the last dot. -/
def splitext (p : String) : String × String :=
  let r := p.data.reverse
  let extRev := r.takeWhile (fun c => !(c = '.'))
  if extRev.length = r.length then (p, "")
  else (⟨(r.drop (extRev.length + 1)).reverse⟩, ⟨'.' :: extRev.reverse⟩)

/-- The default output path of `translate_single_srt` when no output
directory is given (cli.py lines 121-122): `f'{base}_{output_lang}{ext}'`. -/
def output_file_path (inputFile outputLang : String) : String :=
  let se := splitext inputFile
  se.1 ++ "_" ++ outputLang ++ se.2

/-- One file job as seen by `translate_single_srt` (cli.py lines 56-132).
The fallible external steps — `pysrt.open` (lines 79-80), translator
construction (line 87, e.g. a missing `DEEPL_API_KEY` raises `ValueError`)
and `subs.save` (line 124) — are outcome fields, so theorems quantify over
every combination of their behaviours.  `parse` yields the text of each
parsed block. -/
structure FileJob where
  inputFile : String
  outputLang : String
  sourceLang : String
  env : BlockEnv
  parse : Except PyErr (List String)
  getTranslator : Except PyErr Unit
  save : Except PyErr Unit
  workers : Nat
  completionOrder : List Nat

/-- The body of `translate_single_srt`'s `try` block (cli.py lines 73-125),
with each external failure propagating as an exception. -/
def translate_single_srt_core (job : FileJob) : Except PyErr String :=
  if !validate_language_code job.outputLang false then
    .error (PyErr.valueError ("'" ++ job.outputLang ++
      "' may not be a valid language code. Use --list-languages to see supported codes."))
  else
    match job.parse with
    | .error e => .error e
    | .ok originalBlocks =>
      if originalBlocks.length = 0 then
        .ok ("Warning: No subtitles found in " ++ job.inputFile)
      else
        match job.getTranslator with
        | .error e => .error e
        | .ok _ =>
          let _translated := translate_single_srt_blocks job.env job.outputLang
            job.sourceLang originalBlocks job.workers job.completionOrder
          match job.save with
          | .error e => .error e
          | .ok _ =>
            .ok ("✓ Translated " ++ job.inputFile ++ " → " ++
              output_file_path job.inputFile job.outputLang ++ " (" ++
              toString originalBlocks.length ++ " subtitles)")

/-- `translate_single_srt` (cli.py lines 56-132): the `try/except` chain
always turns the outcome into a status-message string. -/
def translate_single_srt (job : FileJob) : String :=
  match translate_single_srt_core job with
  | .ok msg => msg
  | .error PyErr.fileNotFound => "✗ Error: Input file not found at " ++ job.inputFile
  | .error (PyErr.valueError ve) =>
    "✗ Configuration Error for " ++ job.inputFile ++ ": " ++ ve
  | .error (PyErr.other e) => "✗ Error for " ++ job.inputFile ++ ": " ++ e

/-- The per-file loop of `main` (cli.py lines 224-231): one result is
collected per file and the loop always continues to the next file. -/
def mainLoopResults (jobs : List FileJob) : List String :=
  jobs.map translate_single_srt

/-- A report line as printed by `translate_single_srt`: it begins with
`✓`, `✗` or `Warning`. -/
def isReportMessage (s : String) : Bool :=
  match s.data.head? with
  | some c => c = '✓' || c = '✗' || c = 'W'
  | none => false

/-! ### Predicates and concrete instances used by the theorems -/

/-- Does an `Except` value model a raised Python exception? -/
def exceptFails (r : Except String String) : Bool :=
  match r with
  | .error _ => true
  | .ok _ => false

/-- Is there a well-formed markup span (`<` with a later `>`) anywhere in
the text?  `re.sub(r'<[^>]*>', ...)` finds a match iff this holds. -/
def hasTagIn : List Char → Bool
  | [] => false
  | c :: rest => (c = '<' && rest.contains '>') || hasTagIn rest

/-- Specification-side characterization of the tag-extraction scan, written
from the spec's words (§4.1): scanning left to right, every angle-bracket
span is replaced by `__TAG_<n>__` with `n` the zero-based discovery index,
and each `(placeholder, original span)` pair is appended in discovery
order; other characters are copied. -/
inductive ExtractSpec : List Char → Nat → List Char → List (String × String) → Prop where
  | nil : ∀ n, ExtractSpec [] n [] []
  | plain : ∀ c rest n out tg, ¬(c = '<' ∧ rest.contains '>' = true) →
      ExtractSpec rest n out tg → ExtractSpec (c :: rest) n (c :: out) tg
  | tag : ∀ inside after n out tg, '>' ∉ inside →
      ExtractSpec after (n + 1) out tg →
      ExtractSpec ('<' :: (inside ++ '>' :: after)) n ((placeholder n).data ++ out)
        ((placeholder n, ⟨'<' :: (inside ++ ['>'])⟩) :: tg)

/-- Whitespace normal form (spec §4.1): every whitespace character is a
plain space, no two adjacent characters are both whitespace, and the ends
are not whitespace. -/
def wsNormal (l : List Char) : Prop :=
  (∀ c ∈ l, pyIsSpace c = true → c = ' ') ∧
  List.Chain' (fun a b => pyIsSpace a = false ∨ pyIsSpace b = false) l ∧
  (∀ c, l.head? = some c → pyIsSpace c = false) ∧
  (∀ c, l.getLast? = some c → pyIsSpace c = false)

/-- Block environment exercising a backend that raises on exactly one of
two sentences: the segmenter splits the block `"Hello. World."` into its
two sentences, detection fails, and the backend raises on `"Hello."` while
translating every other sentence to `"MUNDO."`. -/
def envC1 : BlockEnv where
  split_into_sentences := fun t =>
    if t = "Hello. World." then ["Hello.", "World."] else [t]
  detect_language := fun _ => "unknown"
  translate := fun t _ _ => if t = "Hello." then .error "boom" else .ok "MUNDO."

/-- Block environment with a spec-compliant segmenter (§4.2: text without
sentence-ending punctuation yields one segment equal to the whole input)
and a backend that performs no emptiness check of its own, translating
everything — including blank text — to `"XXX"`. -/
def envC6 : BlockEnv where
  split_into_sentences := fun t => [t]
  detect_language := fun _ => "unknown"
  translate := fun _ _ _ => .ok "XXX"

/-- Deterministic block environment for witnesses: one segment per block,
no detection, the backend appends `"!"`. -/
def envW : BlockEnv where
  split_into_sentences := fun t => [t]
  detect_language := fun _ => "unknown"
  translate := fun t _ _ => .ok (t ++ "!")

/-- A file job whose input file is missing: `pysrt.open` raises
`FileNotFoundError`. -/
def jobBad : FileJob where
  inputFile := "missing.srt"
  outputLang := "es"
  sourceLang := "auto"
  env := envW
  parse := .error PyErr.fileNotFound
  getTranslator := .ok ()
  save := .ok ()
  workers := 1
  completionOrder := []

/-! ## Theorems -/

/-! ### C5 — effective source language -/

/-- C5: for every caller-supplied source language and every detection
outcome, the effective source language computed by the `if`/`elif` chain of
`translate_block` (and passed to the backend by `translateSentences`) is the
detected language whenever detection did not return `"unknown"`, and the
caller-supplied language otherwise. -/
theorem C5_effective_source_language (sourceLang detectedLang : String) :
    effectiveSourceLang sourceLang detectedLang =
      if detectedLang ≠ "unknown" then detectedLang else sourceLang := by
  by_cases h1 : sourceLang = "auto" <;> by_cases h2 : detectedLang = "unknown" <;>
    by_cases h3 : detectedLang = sourceLang <;>
      simp [effectiveSourceLang, h1, h2, h3]

/-! ### C7 — `auto`/empty source language at the backends -/

/-- C7 counterexample: the MyMemory backend does not delegate source
detection when given `source_lang = "auto"`; `_get_full_code` maps `"auto"`
(and empty) to the fixed substitute `"en-GB"`, and that fixed code — not an
auto-detect mode — is what the underlying translator receives (shown by a
remote that echoes the source code it was invoked with). -/
theorem C7_counterexample :
    myMemoryTranslate (fun source _ _ => .ok source) ("Hello") ("es") ("auto") =
        .ok "en-GB" ∧
      mymemory_get_full_code ("auto") = "en-GB" ∧
      mymemory_get_full_code ("") = "en-GB" ∧
      ("en-GB" : String) ≠ "auto" := by
  refine ⟨rfl, rfl, rfl, by decide⟩

/-- C7 (amended): with `source_lang` equal to `"auto"` or empty, the Google
and DeepL backends invoke their underlying translator in auto-detect mode
(source `"auto"`), while the MyMemory backend substitutes the fixed source
code `"en-GB"`. -/
theorem C7_amended (srcLang : String) (h : srcLang = "" ∨ srcLang = "auto") :
    googleSourceParam srcLang = "auto" ∧ deeplSourceParam srcLang = "auto" ∧
      mymemory_get_full_code srcLang = "en-GB" := by
  rcases h with h | h <;> subst h <;> exact ⟨rfl, rfl, rfl⟩

/-- C7 witness: the amended theorem applied at `source_lang = "auto"`. -/
theorem C7_witness :
    googleSourceParam ("auto") = "auto" ∧ deeplSourceParam ("auto") = "auto" ∧
      mymemory_get_full_code ("auto") = "en-GB" :=
  C7_amended ("auto") (Or.inr rfl)

/-! ### C6 — emptiness check location -/

/-- C6 counterexample: the orchestration layer performs no emptiness check.
`translate_block` on the all-whitespace block `"   "`, with a spec-compliant
segmenter and a backend that lacks its own blank-text check, hands the
blank text to the backend and returns the backend's answer `"XXX"` instead
of the unchanged text. -/
theorem C6_counterexample :
    (translate_block envC6 0 ("   ") ("es") ("auto")).2 = "XXX" ∧
      ("XXX" : String) ≠ "   " := by
  refine ⟨rfl, by decide⟩

/-- C6 (amended): for every empty or all-whitespace text, each backend
implementation's `translate` returns the text unchanged, and does so for
every possible remote service behaviour — i.e. without contacting the
remote.  The emptiness check lives inside each backend implementation, not
in the orchestration layer. -/
theorem C6_amended (gremote : String → String → String → Except String String)
    (dremote : String → String → String → String → Except String String)
    (mremote : String → String → String → Except String String)
    (apiKey text destLang srcLang : String) (h : pyIsBlank text = true) :
    googleTranslate gremote text destLang srcLang = .ok text ∧
      deeplTranslate dremote apiKey text destLang srcLang = .ok text ∧
      myMemoryTranslate mremote text destLang srcLang = .ok text := by
  refine ⟨?_, ?_, ?_⟩ <;>
    simp [googleTranslate, deeplTranslate, myMemoryTranslate, h]

/-- C6 witness: the amended theorem applied to the blank text `" "` and
remotes that would fail if contacted. -/
theorem C6_witness :
    googleTranslate (fun _ _ _ => .error "net down") (" ") ("es") ("en") = .ok " " ∧
      deeplTranslate (fun _ _ _ _ => .error "net down") ("key") (" ") ("es") ("en") =
        .ok " " ∧
      myMemoryTranslate (fun _ _ _ => .error "net down") (" ") ("es") ("en") = .ok " " :=
  C6_amended (fun _ _ _ => .error "net down") (fun _ _ _ _ => .error "net down")
    (fun _ _ _ => .error "net down") ("key") (" ") ("es") ("en") (by decide)

/-! ### C1 — failure granularity inside a block -/

/-- If some sentence's backend call raises, the whole sentence loop raises. -/
theorem translateSentences_fails (env : BlockEnv) (outputLang sourceLang : String)
    (sentences : List String)
    (h : ∃ s ∈ sentences, exceptFails (env.translate s outputLang
      (effectiveSourceLang sourceLang (env.detect_language s))) = true) :
    ∃ e, translateSentences env outputLang sourceLang sentences = .error e := by
  induction sentences with
  | nil => simp at h
  | cons s rest ih =>
    rw [translateSentences]
    rcases h with ⟨w, hw, hfail⟩
    rcases List.mem_cons.mp hw with rfl | hwrest
    · cases hcall : env.translate w outputLang
          (effectiveSourceLang sourceLang (env.detect_language w)) with
      | error e => exact ⟨e, rfl⟩
      | ok t => rw [hcall] at hfail; simp [exceptFails] at hfail
    · cases hcall : env.translate s outputLang
          (effectiveSourceLang sourceLang (env.detect_language s)) with
      | error e => exact ⟨e, rfl⟩
      | ok t =>
        obtain ⟨e, he⟩ := ih ⟨w, hwrest, hfail⟩
        exact ⟨e, by rw [he]⟩

/-- C1 counterexample: in `translate_block` a failure while translating one
sentence is not caught at the sentence level.  For the two-sentence block
`"Hello. World."` whose backend raises on `"Hello."` only, the final block
text is the whole original block; the other sentence's translation
`"MUNDO."` does not appear anywhere in it (the claim requires it to). -/
theorem C1_counterexample :
    (translate_block envC1 0 ("Hello. World.") ("es") ("auto")).2 = "Hello. World." ∧
      occursIn ("MUNDO.").data
        ((translate_block envC1 0 ("Hello. World.") ("es") ("auto")).2).data = false := by
  refine ⟨rfl, by decide⟩

/-- C1 (amended): a failure raised while translating any sentence of a
block is caught at the block level: the entire block's translated form
falls back to the block's original text (the translations of the other
sentences of that block are discarded). -/
theorem C1_amended (env : BlockEnv) (idx : Nat)
    (originalText outputLang sourceLang : String)
    (h : ∃ s ∈ env.split_into_sentences (clean_text originalText).1,
      exceptFails (env.translate s outputLang
        (effectiveSourceLang sourceLang (env.detect_language s))) = true) :
    translate_block env idx originalText outputLang sourceLang = (idx, originalText) := by
  obtain ⟨e, he⟩ := translateSentences_fails env outputLang sourceLang _ h
  rw [translate_block, translate_block_core]
  rw [he]

/-- C1 witness: the amended theorem applied to the concrete environment
whose backend raises on the sentence `"Hello."`. -/
theorem C1_witness :
    translate_block envC1 1 ("Hello. World.") ("es") ("auto") = (1, "Hello. World.") :=
  C1_amended envC1 1 ("Hello. World.") ("es") ("auto")
    ⟨"Hello.", by decide, by decide⟩

/-! ### C3 — restoration of placeholders -/

/-- `str.replace` is the identity when the pattern does not occur. -/
theorem listReplaceAux_of_not_occurs (pat rep l : List Char)
    (h : occursIn pat l = false) : listReplaceAux pat rep l 0 = l := by
  induction l with
  | nil => rfl
  | cons c rest ih =>
    rw [occursIn, Bool.or_eq_false_iff] at h
    rw [listReplaceAux, if_neg (by simp [h.1]), ih h.2]

/-- `strReplace` is the identity when the pattern does not occur. -/
theorem strReplace_of_not_occurs (s pat rep : String)
    (h : occursIn pat.data s.data = false) : strReplace s pat rep = s := by
  cases s with
  | mk data => rw [strReplace, listReplaceAux_of_not_occurs _ _ _ h]

/-- `reinsert_tags` leaves the text unchanged when no placeholder of the
table occurs in it. -/
theorem reinsert_tags_of_not_occurs (text : String) (tags : List (String × String))
    (h : ∀ p ∈ tags, occursIn p.1.data text.data = false) :
    reinsert_tags text tags = text := by
  induction tags with
  | nil => rfl
  | cons p rest ih =>
    rw [reinsert_tags, List.foldl_cons,
      strReplace_of_not_occurs _ _ _ (h p (List.mem_cons_self p rest))]
    exact ih fun q hq => h q (List.mem_cons_of_mem p hq)

/-- C3 counterexample: the result of `reinsert_tags` is not independent of
the substitution order, even for a placeholder table produced by
`clean_text`.  With the table of `clean_text "<i>x</i>"` and the text
`"__TAG_0__TAG_1__"` (whose two placeholder occurrences overlap),
substituting in table order and in reverse order give different results. -/
theorem C3_counterexample :
    (clean_text ("<i>x</i>")).2 = [("__TAG_0__", "<i>"), ("__TAG_1__", "</i>")] ∧
      reinsert_tags ("__TAG_0__TAG_1__") ((clean_text ("<i>x</i>")).2) = "<i>TAG_1__" ∧
      reinsert_tags ("__TAG_0__TAG_1__") (((clean_text ("<i>x</i>")).2).reverse) =
        "__TAG_0</i>" ∧
      ("<i>TAG_1__" : String) ≠ "__TAG_0</i>" := by
  refine ⟨rfl, rfl, rfl, by decide⟩

/-- C3 (amended): `reinsert_tags` substitutes the `(placeholder, markup)`
pairs sequentially in table order, each step replacing every occurrence of
that placeholder in the current text; the result is not in general
independent of that order (the counterexample shows overlapping placeholder
occurrences break it).  When called with an empty placeholder list — and
more generally whenever no placeholder of the table occurs in the text —
`reinsert_tags` returns its text argument unchanged. -/
theorem C3_amended (text : String) (tags : List (String × String))
    (h : ∀ p ∈ tags, occursIn p.1.data text.data = false) :
    reinsert_tags text [] = text ∧ reinsert_tags text tags = text :=
  ⟨rfl, reinsert_tags_of_not_occurs text tags h⟩

/-- C3 witness: the amended theorem applied to a translated text containing
no placeholder and the table of `clean_text "<b>hi</b>"`. -/
theorem C3_witness :
    reinsert_tags ("Hola") [] = "Hola" ∧
      reinsert_tags ("Hola") [("__TAG_0__", "<b>"), ("__TAG_1__", "</b>")] = "Hola" :=
  C3_amended ("Hola") [("__TAG_0__", "<b>"), ("__TAG_1__", "</b>")] (by decide)

/-! ### C2, C8 — orchestrator: block count, fallback and ordering -/

/-- `translate_block` returns its own block position unchanged. -/
theorem translate_block_fst (env : BlockEnv) (idx : Nat) (t o s : String) :
    (translate_block env idx t o s).1 = idx := by
  rw [translate_block]
  cases translate_block_core env t o s <;> rfl

/-- When the block pipeline raises, `translate_block` returns the original
block text. -/
theorem translate_block_failed (env : BlockEnv) (idx : Nat) (t o s : String)
    (h : exceptFails (translate_block_core env t o s) = true) :
    translate_block env idx t o s = (idx, t) := by
  rw [translate_block]
  cases hc : translate_block_core env t o s with
  | error e => rfl
  | ok v => rw [hc] at h; simp [exceptFails] at h

/-- Filling slots never changes the length of the pre-sized sequence. -/
theorem collect_foldl_length (rs : List (Nat × String)) (acc : List (Option String)) :
    (rs.foldl (fun a r => a.set r.1 (some r.2)) acc).length = acc.length := by
  induction rs generalizing acc with
  | nil => rfl
  | cons r rest ih => rw [List.foldl_cons, ih, List.length_set]

/-- A slot whose position is hit by no result keeps its value. -/
theorem collect_foldl_getElem_not_mem (rs : List (Nat × String))
    (acc : List (Option String)) (i : Nat) (h : ∀ r ∈ rs, r.1 ≠ i) :
    (rs.foldl (fun a r => a.set r.1 (some r.2)) acc)[i]? = acc[i]? := by
  induction rs generalizing acc with
  | nil => rfl
  | cons r rest ih =>
    rw [List.foldl_cons, ih _ (fun q hq => h q (List.mem_cons_of_mem r hq)),
      List.getElem?_set_ne (h r (List.mem_cons_self r rest))]

/-- A slot hit by exactly one result (positions are distinct) holds that
result, whatever the completion order. -/
theorem collect_foldl_getElem_mem (rs : List (Nat × String))
    (acc : List (Option String)) (j : Nat) (v : String)
    (hnd : (rs.map Prod.fst).Nodup) (hmem : (j, v) ∈ rs) (hlt : j < acc.length) :
    (rs.foldl (fun a r => a.set r.1 (some r.2)) acc)[j]? = some (some v) := by
  induction rs generalizing acc with
  | nil => simp at hmem
  | cons r rest ih =>
    rw [List.foldl_cons]
    rcases List.mem_cons.mp hmem with heq | hrest
    · have hj : (j : Nat) ∉ rest.map Prod.fst := by
        have h1 := (List.nodup_cons.mp hnd).1
        rw [← heq] at h1
        simpa using h1
      rw [collect_foldl_getElem_not_mem rest _ j
        (fun q hq hq1 => hj (hq1 ▸ List.mem_map_of_mem Prod.fst hq)), ← heq,
        List.getElem?_set_self hlt]
    · exact ih (acc.set r.1 (some r.2)) (List.nodup_cons.mp hnd).2 hrest
        (by rw [List.length_set]; exact hlt)

/-- The translation phase always yields one slot per input block. -/
theorem translate_single_srt_blocks_length (env : BlockEnv)
    (outputLang sourceLang : String) (blocks : List String) (workers : Nat)
    (order : List Nat) :
    (translate_single_srt_blocks env outputLang sourceLang blocks workers order).length =
      blocks.length := by
  rw [translate_single_srt_blocks]
  by_cases hc : useConcurrent workers blocks.length = true
  · rw [if_pos hc, collectByPosition, collect_foldl_length, List.length_replicate]
  · rw [if_neg hc, List.length_map, List.enum_length]

/-- Whatever the completion order, slot `i` holds the translation result of
input block `i`. -/
theorem translate_single_srt_blocks_getElem (env : BlockEnv)
    (outputLang sourceLang : String) (blocks : List String) (workers : Nat)
    (order : List Nat) (hperm : order.Perm (List.range blocks.length))
    (i : Nat) (hi : i < blocks.length) :
    (translate_single_srt_blocks env outputLang sourceLang blocks workers order)[i]? =
      some (some ((translate_block env i (blocks.getD i ("")) outputLang sourceLang).2)) := by
  rw [translate_single_srt_blocks]
  by_cases hc : useConcurrent workers blocks.length = true
  · rw [if_pos hc, collectByPosition]
    apply collect_foldl_getElem_mem
    · rw [List.map_map]
      have hcomp : (Prod.fst ∘ fun j =>
          translate_block env j (blocks.getD j ("")) outputLang sourceLang) = id :=
        funext fun j => translate_block_fst env j (blocks.getD j ("")) outputLang sourceLang
      rw [hcomp, List.map_id]
      exact (List.Perm.nodup_iff hperm).mpr (List.nodup_range _)
    · refine List.mem_map.mpr ⟨i, ?_, ?_⟩
      · exact (List.Perm.mem_iff hperm).mpr (List.mem_range.mpr hi)
      · exact Prod.ext (translate_block_fst env i (blocks.getD i ("")) outputLang sourceLang) rfl
    · rw [List.length_replicate]; exact hi
  · rw [if_neg hc]
    rw [List.getElem?_map, List.enum_eq_enumFrom, List.getElem?_enumFrom,
      List.getElem?_eq_getElem hi]
    simp [List.getD_eq_getElem?_getD, List.getElem?_eq_getElem hi]

/-- C2: for every environment (hence every combination of per-block
failures) and every completion order, the orchestrator produces exactly one
slot per parsed block; slot `i` always holds block `i`'s translation
result, and when block `i`'s pipeline raises internally, that slot carries
block `i`'s original text unchanged. -/
theorem C2_block_count_invariant (env : BlockEnv) (outputLang sourceLang : String)
    (blocks : List String) (workers : Nat) (order : List Nat)
    (hperm : order.Perm (List.range blocks.length)) :
    (translate_single_srt_blocks env outputLang sourceLang blocks workers order).length =
        blocks.length ∧
      (∀ i, i < blocks.length →
        (translate_single_srt_blocks env outputLang sourceLang blocks workers order)[i]? =
          some (some ((translate_block env i (blocks.getD i ("")) outputLang
            sourceLang).2))) ∧
      (∀ i, i < blocks.length →
        exceptFails (translate_block_core env (blocks.getD i ("")) outputLang
          sourceLang) = true →
        (translate_single_srt_blocks env outputLang sourceLang blocks workers order)[i]? =
          some (some (blocks.getD i ("")))) := by
  refine ⟨translate_single_srt_blocks_length env outputLang sourceLang blocks workers order,
    fun i hi => translate_single_srt_blocks_getElem env outputLang sourceLang blocks
      workers order hperm i hi, fun i hi hfail => ?_⟩
  rw [translate_single_srt_blocks_getElem env outputLang sourceLang blocks workers order
    hperm i hi, translate_block_failed env i (blocks.getD i ("")) outputLang sourceLang hfail]

/-- C2 witness: a one-block file whose only block fails internally (the
backend raises on its first sentence); the orchestrator still produces
exactly one result and it carries the original text. -/
theorem C2_witness :
    (translate_single_srt_blocks envC1 ("es") ("auto") (["Hello. World."]) 1
        (List.range 1)).length = 1 ∧
      (translate_single_srt_blocks envC1 ("es") ("auto") (["Hello. World."]) 1
          (List.range 1))[0]? = some (some "Hello. World.") := by
  have h := C2_block_count_invariant envC1 ("es") ("auto") (["Hello. World."]) 1
    (List.range 1) (List.Perm.refl _)
  exact ⟨h.1, h.2.2 0 (by decide) (by decide)⟩

/-- C8 counterexample: with 2 workers and exactly 10 blocks the source
takes the sequential path (`workers > 1 and total_blocks > 10` is false),
although the claim's condition for sequential processing — worker count ≤ 1
or block count strictly below the threshold 10 — does not hold. -/
theorem C8_counterexample :
    useConcurrent 2 10 = false ∧ ¬(2 ≤ 1 ∨ 10 < 10) := by decide

/-- C8 (amended): the orchestrator processes requests sequentially exactly
when the worker count is ≤ 1 or the number of blocks is at most 10 (the
pool is used only for strictly more than 10 blocks); in either path, for
every completion order of the worker pool, output slot `i` holds the
translation result of input block `i`, so output order matches input order
regardless of completion order. -/
theorem C8_dispatch_and_ordering (env : BlockEnv) (outputLang sourceLang : String)
    (blocks : List String) (workers : Nat) (order : List Nat)
    (hperm : order.Perm (List.range blocks.length)) :
    (∀ w t : Nat, useConcurrent w t = false ↔ (w ≤ 1 ∨ t ≤ 10)) ∧
      (∀ i, i < blocks.length →
        (translate_single_srt_blocks env outputLang sourceLang blocks workers order)[i]? =
          some (some ((translate_block env i (blocks.getD i ("")) outputLang
            sourceLang).2))) := by
  constructor
  · intro w t
    simp only [useConcurrent, Bool.and_eq_false_iff, decide_eq_false_iff_not, Nat.not_lt]
  · exact fun i hi => translate_single_srt_blocks_getElem env outputLang sourceLang blocks
      workers order hperm i hi

/-- C8 witness: an 11-block file with 2 workers takes the pool path; even
with a reversed completion order, slot 3 holds block 3's result. -/
theorem C8_witness :
    (useConcurrent 1 5 = false ↔ (1 ≤ 1 ∨ 5 ≤ 10)) ∧
      (translate_single_srt_blocks envW ("es") ("auto") (List.replicate 11 ("x")) 2
        ((List.range 11).reverse))[3]? = some (some ("x!")) := by
  have h := C8_dispatch_and_ordering envW ("es") ("auto") (List.replicate 11 ("x")) 2
    ((List.range 11).reverse) (List.reverse_perm (List.range 11))
  refine ⟨h.1 1 5, ?_⟩
  rw [h.2 3 (by decide)]
  rfl

/-! ### C9 — the file boundary -/

/-- A string starting with a report marker keeps it under appending. -/
theorem isReportMessage_append (a b : String) (h : isReportMessage a = true) :
    isReportMessage (a ++ b) = true := by
  cases a with
  | mk d =>
    cases d with
    | nil => simp [isReportMessage] at h
    | cons c cs =>
      rw [isReportMessage] at h ⊢
      cases b with
      | mk d2 => exact h

/-- Every possible outcome of a single file job yields a report line. -/
theorem translate_single_srt_isReport (job : FileJob) :
    isReportMessage (translate_single_srt job) = true := by
  rw [translate_single_srt]
  cases hc : translate_single_srt_core job with
  | error e => cases e <;> exact isReportMessage_append _ _ rfl
  | ok msg =>
    rw [translate_single_srt_core] at hc
    by_cases hv : validate_language_code job.outputLang false
    case neg => rw [if_pos (by simp [hv])] at hc; exact absurd hc (by simp)
    case pos =>
      rw [if_neg (by simp [hv])] at hc
      cases hp : job.parse with
      | error e => rw [hp] at hc; exact absurd hc (by simp)
      | ok originalBlocks =>
        rw [hp] at hc
        dsimp only at hc
        by_cases hz : originalBlocks.length = 0
        · rw [if_pos hz] at hc
          cases hc
          exact isReportMessage_append _ _ rfl
        · rw [if_neg hz] at hc
          cases ht : job.getTranslator with
          | error e => rw [ht] at hc; exact absurd hc (by simp)
          | ok u =>
            rw [ht] at hc
            dsimp only at hc
            cases hs : job.save with
            | error e => rw [hs] at hc; exact absurd hc (by simp)
            | ok u2 =>
              rw [hs] at hc
              dsimp only at hc
              cases hc
              exact isReportMessage_append _ _ rfl

/-- C9: for every list of file jobs — covering missing files, parse
failures, invalid target language codes, missing credentials at translator
construction, write failures and any other per-file exception — the main
loop collects exactly one report per file, and each report is a plain
status line (it begins with `✓`, `✗` or `Warning`), never an unhandled
failure; so the loop always continues to the next file. -/
theorem C9_file_boundary (jobs : List FileJob) :
    (mainLoopResults jobs).length = jobs.length ∧
      ∀ job ∈ jobs, isReportMessage (translate_single_srt job) = true := by
  refine ⟨?_, fun job _ => translate_single_srt_isReport job⟩
  rw [mainLoopResults, List.length_map]

/-- C9 witness: a job for a missing input file still yields one report. -/
theorem C9_witness :
    (mainLoopResults [jobBad]).length = 1 ∧
      isReportMessage (translate_single_srt jobBad) = true := by
  have h := C9_file_boundary [jobBad]
  exact ⟨h.1, h.2 jobBad (List.mem_singleton.mpr rfl)⟩

/-! ### C10 — frame property of update and write -/

/-- C10: updating the translated texts changes only each block's `text`
field: the update succeeds whenever one text per block is supplied, the
number of blocks is preserved (so the serializer receives exactly as many
blocks as were parsed), and every block's `index`, `start` and `end` are
handed to `write_srt`'s serializer verbatim, with only `text` replaced. -/
theorem C10_update_frame (subs : List Subtitle) (texts : List String)
    (h : subs.length = texts.length) :
    ∃ subs', update_subtitles_text subs texts = some subs' ∧
      subs'.length = subs.length ∧
      (subs'.map serializeSubtitle).length = subs.length ∧
      ∀ i, i < subs.length →
        subs'[i]?.map Subtitle.index = subs[i]?.map Subtitle.index ∧
        subs'[i]?.map Subtitle.start = subs[i]?.map Subtitle.start ∧
        subs'[i]?.map Subtitle.endTime = subs[i]?.map Subtitle.endTime ∧
        subs'[i]?.map Subtitle.text = texts[i]? := by
  refine ⟨List.zipWith (fun sub t => { sub with text := t }) subs texts, ?_, ?_, ?_, ?_⟩
  · rw [update_subtitles_text, if_pos (Nat.le_of_eq h)]
  · simp [List.length_zipWith, h]
  · simp [List.length_zipWith, h]
  · intro i hi
    have hi2 : i < texts.length := h ▸ hi
    refine ⟨?_, ?_, ?_, ?_⟩ <;>
      simp [List.getElem?_zipWith, List.getElem?_eq_getElem hi,
        List.getElem?_eq_getElem hi2]

/-- C10 witness: the theorem applied to a concrete two-block file. -/
theorem C10_witness :
    ∃ subs', update_subtitles_text
        [{ index := 1, start := "00:00:01,000", endTime := "00:00:02,000", text := "Hello" },
          { index := 2, start := "00:00:03,000", endTime := "00:00:04,000", text := "World" }]
        (["Hola", "Mundo"]) = some subs' ∧ subs'.length = 2 := by
  obtain ⟨s, h1, h2, _, _⟩ := C10_update_frame
    [{ index := 1, start := "00:00:01,000", endTime := "00:00:02,000", text := "Hello" },
      { index := 2, start := "00:00:03,000", endTime := "00:00:04,000", text := "World" }]
    (["Hola", "Mundo"]) rfl
  exact ⟨s, h1, h2⟩

/-! ### C4 — the sanitizer -/

/-- Skipping `k` characters is dropping them. -/
theorem extractTagsAux_skip (l : List Char) : ∀ (k n : Nat),
    extractTagsAux l k n = extractTagsAux (l.drop k) 0 n := by
  induction l with
  | nil => intro k n; cases k <;> rfl
  | cons c rest ih =>
    intro k n
    cases k with
    | zero => rfl
    | succ k => rw [List.drop_succ_cons]; exact ih k n

/-- A list containing `'>'` splits at its first `'>'`: the part before it
(the matched tag's inside, free of `'>'`), the `'>'`, and the rest. -/
theorem takeWhile_gt_split (rest : List Char) (h : rest.contains '>' = true) :
    rest = rest.takeWhile (fun x => !(x = '>')) ++
        '>' :: rest.drop ((rest.takeWhile (fun x => !(x = '>'))).length + 1) ∧
      '>' ∉ rest.takeWhile (fun x => !(x = '>')) := by
  induction rest with
  | nil => simp at h
  | cons c r ih =>
    by_cases hcgt : c = '>'
    · subst hcgt
      simp [List.takeWhile_cons]
    · have hr : r.contains '>' = true := by
        simp only [List.contains_cons, Bool.or_eq_true, beq_iff_eq] at h
        rcases h with h | h
        · exact absurd h.symm hcgt
        · exact h
      have hpc : (!(c = '>') : Bool) = true := by simp [hcgt]
      rw [List.takeWhile_cons, if_pos hpc]
      constructor
      · rw [List.length_cons, List.drop_succ_cons, List.cons_append]
        exact congrArg (c :: ·) (ih hr).1
      · simp only [List.mem_cons]
        rintro (hh | hh)
        · exact hcgt hh.symm
        · exact (ih hr).2 hh

/-- The tag-extraction pass satisfies the spec-side scan description. -/
theorem extractTagsAux_spec_aux (N : Nat) : ∀ (l : List Char), l.length ≤ N →
    ∀ (n : Nat), ExtractSpec l n (extractTagsAux l 0 n).1 (extractTagsAux l 0 n).2 := by
  induction N with
  | zero =>
    intro l hl n
    have hnil : l = [] := List.length_eq_zero.mp (Nat.le_zero.mp hl)
    subst hnil
    exact ExtractSpec.nil n
  | succ N ih =>
    intro l hl n
    cases l with
    | nil => exact ExtractSpec.nil n
    | cons c rest =>
      have hrl : rest.length ≤ N := Nat.succ_le_succ_iff.mp hl
      by_cases hc : (c = '<' && rest.contains '>') = true
      · have hcp : c = '<' ∧ rest.contains '>' = true := by simpa using hc
        obtain ⟨hceq, hcr⟩ := hcp
        subst hceq
        simp only [extractTagsAux]
        rw [if_pos (by simpa using hcr)]
        obtain ⟨hsp1, hsp2⟩ := takeWhile_gt_split rest hcr
        rw [extractTagsAux_skip rest
          ((rest.takeWhile (fun x => !(x = '>'))).length + 1) (n + 1)]
        set tw := rest.takeWhile (fun x => !(x = '>')) with htw
        set af := rest.drop (tw.length + 1) with haf
        rw [hsp1]
        have hafl : af.length ≤ N := by
          rw [haf, List.length_drop]
          exact le_trans (Nat.sub_le _ _) hrl
        exact ExtractSpec.tag tw af n _ _ hsp2 (ih af hafl (n + 1))
      · simp only [extractTagsAux]
        rw [if_neg hc]
        refine ExtractSpec.plain c rest n _ _ (fun hand => hc ?_) (ih rest hrl n)
        rw [hand.1, hand.2]
        simp

/-- The tags recorded by the scan starting at index `n` are named
`__TAG_n__`, `__TAG_{n+1}__`, … in order. -/
theorem extractTagsAux_placeholder_names (N : Nat) : ∀ (l : List Char), l.length ≤ N →
    ∀ (skip n i : Nat) (p : String × String),
    ((extractTagsAux l skip n).2)[i]? = some p → p.1 = placeholder (n + i) := by
  induction N with
  | zero =>
    intro l hl skip n i p hp
    have hnil : l = [] := List.length_eq_zero.mp (Nat.le_zero.mp hl)
    subst hnil
    simp [extractTagsAux] at hp
  | succ N ih =>
    intro l hl skip n i p hp
    cases l with
    | nil => simp [extractTagsAux] at hp
    | cons c rest =>
      have hrl : rest.length ≤ N := Nat.succ_le_succ_iff.mp hl
      cases skip with
      | succ k => exact ih rest hrl k n i p hp
      | zero =>
        by_cases hc : (c = '<' && rest.contains '>') = true
        · have hcp : c = '<' ∧ rest.contains '>' = true := by simpa using hc
          obtain ⟨hceq, hcr⟩ := hcp
          subst hceq
          simp only [extractTagsAux] at hp
          rw [if_pos (by simpa using hcr)] at hp
          cases i with
          | zero =>
            rw [List.getElem?_cons_zero] at hp
            rw [← Option.some.inj hp]
            simp
          | succ j =>
            rw [List.getElem?_cons_succ] at hp
            have h2 := ih rest hrl _ (n + 1) j p hp
            rw [h2]
            exact congrArg placeholder (by omega)
        · simp only [extractTagsAux] at hp
          rw [if_neg hc] at hp
          exact ih rest hrl 0 n i p hp

/-- Text without a well-formed markup span is scanned unchanged: no
placeholder is introduced and the tag list stays empty. -/
theorem extractTagsAux_no_tag (l : List Char) (h : hasTagIn l = false) (n : Nat) :
    extractTagsAux l 0 n = (l, []) := by
  induction l generalizing n with
  | nil => rfl
  | cons c rest ih =>
    rw [hasTagIn, Bool.or_eq_false_iff] at h
    simp only [extractTagsAux]
    rw [if_neg (by rw [h.1]; simp), ih h.2 n]

/-- Every whitespace character surviving the collapsing pass is a space. -/
theorem collapseWsAux_space_mem (l : List Char) : ∀ (b : Bool) (c : Char),
    c ∈ collapseWsAux b l → pyIsSpace c = true → c = ' ' := by
  induction l with
  | nil => intro b c hc _; simp [collapseWsAux] at hc
  | cons c0 rest ih =>
    intro b c hc hsp
    rw [collapseWsAux] at hc
    by_cases h0 : pyIsSpace c0 = true
    · cases b with
      | false =>
        rw [if_pos h0, if_neg (by simp)] at hc
        rcases List.mem_cons.mp hc with rfl | hmem
        · rfl
        · exact ih true c hmem hsp
      | true =>
        rw [if_pos h0, if_pos rfl] at hc
        exact ih true c hc hsp
    · rw [if_neg h0] at hc
      rcases List.mem_cons.mp hc with rfl | hmem
      · exact absurd hsp h0
      · exact ih false c hmem hsp

/-- Inside a whitespace run, the collapsing pass next emits a
non-whitespace character (the single space was already emitted). -/
theorem collapseWsAux_true_head (l : List Char) : ∀ (c : Char),
    (collapseWsAux true l).head? = some c → pyIsSpace c = false := by
  induction l with
  | nil => intro c hc; simp [collapseWsAux] at hc
  | cons c0 rest ih =>
    intro c hc
    rw [collapseWsAux] at hc
    by_cases h0 : pyIsSpace c0 = true
    · rw [if_pos h0, if_pos rfl] at hc
      exact ih c hc
    · rw [if_neg h0, List.head?_cons] at hc
      have hcc : c = c0 := by simpa using hc.symm
      subst hcc
      simpa using h0

/-- The collapsing pass never emits two adjacent whitespace characters. -/
theorem collapseWsAux_chain (l : List Char) : ∀ (b : Bool),
    List.Chain' (fun x y => pyIsSpace x = false ∨ pyIsSpace y = false)
      (collapseWsAux b l) := by
  induction l with
  | nil => intro b; simp [collapseWsAux]
  | cons c0 rest ih =>
    intro b
    by_cases h0 : pyIsSpace c0 = true
    · cases b with
      | false =>
        rw [collapseWsAux, if_pos h0, if_neg (by simp)]
        rw [List.chain'_cons']
        exact ⟨fun y hy => Or.inr (collapseWsAux_true_head rest y hy), ih true⟩
      | true =>
        rw [collapseWsAux, if_pos h0, if_pos rfl]
        exact ih true
    · rw [collapseWsAux, if_neg h0, List.chain'_cons']
      exact ⟨fun y _ => Or.inl (by simpa using h0), ih false⟩

/-- The head surviving `dropWhile` fails the predicate. -/
theorem head?_dropWhile_not (p : Char → Bool) (l : List Char) : ∀ c,
    (l.dropWhile p).head? = some c → p c = false := by
  induction l with
  | nil => intro c hc; simp at hc
  | cons c0 rest ih =>
    intro c hc
    rw [List.dropWhile_cons] at hc
    by_cases h0 : p c0 = true
    · rw [if_pos h0] at hc
      exact ih c hc
    · rw [if_neg h0, List.head?_cons] at hc
      have hcc : c = c0 := by simpa using hc.symm
      subst hcc
      simpa using h0

/-- A non-empty prefix starts with the same head. -/
theorem head?_extend {l1 l2 : List Char} (h : l1 <+: l2) (c : Char)
    (hc : l1.head? = some c) : l2.head? = some c := by
  obtain ⟨s, hs⟩ := h
  subst hs
  cases l1 with
  | nil => simp at hc
  | cons a t =>
    rw [List.cons_append, List.head?_cons]
    rwa [List.head?_cons] at hc

/-- The last character surviving `rdropWhile` fails the predicate. -/
theorem getLast?_rdropWhile_not (p : Char → Bool) (X : List Char) (c : Char)
    (hc : (X.rdropWhile p).getLast? = some c) : p c = false := by
  have hne : X.rdropWhile p ≠ [] := by
    intro h0
    rw [h0] at hc
    simp at hc
  have h1 := List.rdropWhile_last_not p X hne
  have h2 : (X.rdropWhile p).getLast hne = c := by
    have h3 := List.getLast?_eq_getLast (X.rdropWhile p) hne
    rw [h3] at hc
    exact Option.some.inj hc
  rw [← h2]
  simpa using h1

/-- Stripping only removes characters. -/
theorem mem_stripList (l : List Char) (c : Char) (h : c ∈ stripList l) : c ∈ l := by
  rw [stripList] at h
  have hpre := List.rdropWhile_prefix pyIsSpace (l.dropWhile pyIsSpace)
  exact (List.dropWhile_suffix pyIsSpace).sublist.subset (hpre.sublist.subset h)

/-- The output of collapse-then-strip is in whitespace normal form. -/
theorem wsNormal_strip_collapse (l : List Char) :
    wsNormal (stripList (collapseWs l)) := by
  have hpre := List.rdropWhile_prefix pyIsSpace ((collapseWs l).dropWhile pyIsSpace)
  refine ⟨?_, ?_, ?_, ?_⟩
  · intro c hc hsp
    exact collapseWsAux_space_mem l false c (mem_stripList (collapseWs l) c hc) hsp
  · rw [stripList]
    have hch := List.Chain'.suffix (collapseWsAux_chain l false)
      (List.dropWhile_suffix pyIsSpace)
    exact List.Chain'.prefix hch hpre
  · intro c hc
    rw [stripList] at hc
    exact head?_dropWhile_not pyIsSpace (collapseWs l) c (head?_extend hpre c hc)
  · intro c hc
    rw [stripList] at hc
    exact getLast?_rdropWhile_not pyIsSpace ((collapseWs l).dropWhile pyIsSpace) c hc

/-- C4: `clean_text` is a total function whose tag-extraction pass realizes
the spec's left-to-right scan (each angle-bracket span replaced by its
placeholder, pairs appended in discovery order — the `ExtractSpec`
characterization); the `n`-th recorded placeholder is `__TAG_n__`
(zero-based, in discovery order); an input with no markup span yields an
empty placeholder list and is only whitespace-normalized; and the final
text is whitespace-normal: every whitespace is a single space, no two
adjacent, none leading or trailing. -/
theorem C4_clean_text (text : String) :
    ExtractSpec text.data 0 (extractTagsAux text.data 0 0).1 ((clean_text text).2) ∧
      (∀ (i : Nat) (p : String × String),
        ((clean_text text).2)[i]? = some p → p.1 = placeholder i) ∧
      (hasTagIn text.data = false → (clean_text text).2 = [] ∧
        (clean_text text).1 = ⟨stripList (collapseWs text.data)⟩) ∧
      wsNormal (clean_text text).1.data := by
  refine ⟨?_, ?_, ?_, ?_⟩
  · exact extractTagsAux_spec_aux text.data.length text.data (le_refl _) 0
  · intro i p hp
    have h2 := extractTagsAux_placeholder_names text.data.length text.data (le_refl _)
      0 0 i p hp
    simpa using h2
  · intro hno
    have h1 := extractTagsAux_no_tag text.data hno 0
    constructor
    · show (extractTagsAux text.data 0 0).2 = []
      rw [h1]
    · show (⟨stripList (collapseWs (extractTagsAux text.data 0 0).1)⟩ : String) = _
      rw [h1]
  · exact wsNormal_strip_collapse (extractTagsAux text.data 0 0).1

/-- C4 witness: the theorem applied to a tagged text (first placeholder is
`__TAG_0__`) and to a markup-free text (empty placeholder list). -/
theorem C4_witness :
    (("__TAG_0__", "<i>") : String × String).1 = placeholder 0 ∧
      (clean_text ("no tags here")).2 = [] :=
  ⟨(C4_clean_text ("a <i>b</i>")).2.1 0 (("__TAG_0__", "<i>")) (by decide),
    ((C4_clean_text ("no tags here")).2.2.1 (by decide)).1⟩

end SrtTrans
